import Mathlib

/-!
Shallow embedding of QSGRoundedRectangularImageNode
(src/QSGRoundedRectangularImageNode.hpp, src/qsgroundedrectangularimagenode.cpp).

Conventions of the embedding:
* `qreal` (double) is modelled by `ℚ`; IEEE rounding is not modelled.
* The Qt painter-path simplifier is external to the repository; the builder is
  parametrised over a `simplify` oracle returning the simplified element stream.
* The process-wide `QCache` of outlines is modelled as an association list that
  is threaded through the build explicitly.
* Pointers that may be null are modelled with `Option`; dereferencing a null
  pointer surfaces as a distinguished `nullDeref` outcome, and a failed
  `assert` as a distinguished `assertHalt` outcome (debug-build semantics).
-/

namespace QSG

/-- 2D point, modelling QPointF with rational coordinates. -/
structure QPointF where
  x : ℚ
  y : ℚ
deriving DecidableEq

instance : Inhabited QPointF := ⟨⟨0, 0⟩⟩

/-- Axis-aligned rectangle (x, y, width, height), modelling QRectF. -/
structure QRectF where
  x : ℚ
  y : ℚ
  w : ℚ
  h : ℚ
deriving DecidableEq

/-- QRectF::isEmpty(): true iff width <= 0 or height <= 0. -/
def QRectF.isEmpty (r : QRectF) : Bool :=
  decide (r.w ≤ 0) || decide (r.h ≤ 0)

/-- The Qt fuzzy comparison for doubles:
    qAbs(p1 - p2) * 1000000000000. <= qMin(qAbs(p1), qAbs(p2)). -/
def qFuzzyCompare (p1 p2 : ℚ) : Bool :=
  decide (|p1 - p2| * 1000000000000 ≤ min |p1| |p2|)

/-- The Qt fuzzy null test for doubles: qAbs(d) <= 0.000000000001. -/
def qFuzzyIsNull (d : ℚ) : Bool :=
  decide (|d| ≤ 1 / 1000000000000)

/-- QSGRoundedRectangularImageNode::Shape: a (rect, radius) pair. -/
structure Shape where
  rect : QRectF
  radius : ℚ
deriving DecidableEq

/-- Shape::operator==: exact comparison on rect, fuzzy comparison on radius. -/
def Shape.beq (a b : Shape) : Bool :=
  decide (a.rect = b.rect) && qFuzzyCompare a.radius b.radius

/-- Shape::isValid(): !rect.isEmpty() && isgreaterequal(radius, 0.0). -/
def Shape.isValid (s : Shape) : Bool :=
  !s.rect.isEmpty && decide (0 ≤ s.radius)

/-- QPainterPath element types. -/
inductive ElementType where
  | moveTo
  | lineTo
  | curveTo
  | curveToData
deriving DecidableEq

/-- One element of a (simplified) painter path. -/
structure PathElement where
  ty : ElementType
  x : ℚ
  y : ℚ
deriving DecidableEq

instance : Inhabited PathElement := ⟨⟨ElementType.moveTo, 0, 0⟩⟩

/-- The implicit QPointF conversion of a QPainterPath element. -/
def PathElement.toPoint (e : PathElement) : QPointF := ⟨e.x, e.y⟩

/-- The per-element assertion of the builder loop:
    type == MoveToElement || type == LineToElement. -/
def PathElement.isLinear (e : PathElement) : Bool :=
  decide (e.ty = ElementType.moveTo) || decide (e.ty = ElementType.lineTo)

/-- The builder loop over the simplified element stream:
    (*path)[i] = painterPath.elementAt((i % 2) ? (i) : (elementCount - i - 1)). -/
def symmetricReorder (elems : List PathElement) : List QPointF :=
  (List.range elems.length).map fun i =>
    (elems.getD (if i % 2 = 1 then i else elems.length - 1 - i) default).toPoint

/-- Cache key: QPair(QPair(width, height), radius). -/
abbrev ShapeKey := (ℚ × ℚ) × ℚ

/-- The process-wide QCache of outlines, as an association list. -/
abbrev PathCache := List (ShapeKey × List QPointF)

/-- The key built by rebuildGeometry: {{rect.width, rect.height}, radius}. -/
def Shape.key (s : Shape) : ShapeKey := ((s.rect.w, s.rect.h), s.radius)

/-- QCache lookup with exact key comparison. -/
def cacheLookup (cache : PathCache) (k : ShapeKey) : Option (List QPointF) :=
  match cache with
  | [] => none
  | (k0, v) :: rest => if k0 = k then some v else cacheLookup rest k

/-- A QSGTexture, reduced to the two predicates the node consumes. -/
structure Texture where
  isAtlasTexture : Bool
  normalizedTextureSubRect : QRectF
deriving DecidableEq

/-- One interleaved vertex: position (x, y) and texture coordinate (tx, ty). -/
structure TexturedPoint2D where
  x : ℚ
  y : ℚ
  tx : ℚ
  ty : ℚ
deriving DecidableEq

instance : Inhabited TexturedPoint2D := ⟨⟨0, 0, 0, 0⟩⟩

/-- A QSGGeometry buffer. Attribute layout (TexturedPoint2D), drawing mode
    (triangle strip) and usage patterns are fixed by construction and are not
    carried explicitly; the vertex count is the length of `vertices`. -/
structure Geometry where
  vertices : List TexturedPoint2D
deriving DecidableEq

/-- texNormalSubRect: the atlas sub-rect, or the unit square when no
    atlas texture is given. -/
def texSubRect (atlasTexture : Option Texture) : QRectF :=
  match atlasTexture with
  | some t => t.normalizedTextureSubRect
  | none => ⟨0, 0, 1, 1⟩

/-- The mapToAtlasTexture lambda:
    (sub.x + sub.w * n.x, sub.y + sub.h * n.y). -/
def mapToAtlasTexture (texNormalSubRect : QRectF) (nPoint : QPointF) : QPointF :=
  ⟨texNormalSubRect.x + texNormalSubRect.w * nPoint.x,
   texNormalSubRect.y + texNormalSubRect.h * nPoint.y⟩

/-- The body of the rounded vertex emission loop: position is the outline
    point offset by the rect origin, texture coordinate is the point
    normalised by the rect size and, when an atlas texture is present,
    remapped into its sub-rect. -/
def roundedVertex (shape : Shape) (atlasTexture : Option Texture)
    (texNormalSubRect : QRectF) (pos : QPointF) : TexturedPoint2D :=
  let tPos : QPointF := ⟨pos.x / shape.rect.w, pos.y / shape.rect.h⟩
  let tPos := if atlasTexture.isSome then mapToAtlasTexture texNormalSubRect tPos else tPos
  ⟨pos.x + shape.rect.x, pos.y + shape.rect.y, tPos.x, tPos.y⟩

/-- Modelled from the spec: QSGGeometry::updateTexturedRectGeometry is a Qt
    helper that is not part of this repository. Per spec section 4.4 the
    plain-rectangle path emits the four corners of the rect paired with the
    four corners of the texture sub-rect in top-left, bottom-left, top-right,
    bottom-right strip order. -/
def updateTexturedRectGeometry (rect subRect : QRectF) : List TexturedPoint2D :=
  [⟨rect.x, rect.y, subRect.x, subRect.y⟩,
   ⟨rect.x, rect.y + rect.h, subRect.x, subRect.y + subRect.h⟩,
   ⟨rect.x + rect.w, rect.y, subRect.x + subRect.w, subRect.y⟩,
   ⟨rect.x + rect.w, rect.y + rect.h, subRect.x + subRect.w, subRect.y + subRect.h⟩]

/-- Result of the static rebuildGeometry: the nullptr failure sentinel, an
    assertion failure (debug semantics), or a built geometry together with
    whether the returned pointer is the supplied buffer. -/
inductive BuildResult where
  | fail
  | assertHalt
  | ok (g : Geometry) (reused : Bool)
deriving DecidableEq

/-- The simplifier oracle: given (width, height, radius), the element stream
    of the simplified rounded-rectangle painter path. -/
abbrev Simplifier := ℚ → ℚ → ℚ → List PathElement

/-- The static QSGRoundedRectangularImageNode::rebuildGeometry(shape,
    geometry, atlasTexture), threading the outline cache explicitly. -/
def rebuildGeometryS (simplify : Simplifier) (cache : PathCache) (shape : Shape)
    (geometry : Option Geometry) (atlasTexture : Option Texture) :
    BuildResult × PathCache :=
  if !shape.isValid then (BuildResult.fail, cache)
  else
    let texNormalSubRect := texSubRect atlasTexture
    if qFuzzyIsNull shape.radius then
      (BuildResult.ok ⟨updateTexturedRectGeometry shape.rect texNormalSubRect⟩
        geometry.isSome, cache)
    else
      match cacheLookup cache shape.key with
      | some path =>
        (BuildResult.ok
          ⟨path.map (roundedVertex shape atlasTexture texNormalSubRect)⟩
          geometry.isSome, cache)
      | none =>
        let elems := simplify shape.rect.w shape.rect.h shape.radius
        if elems.all PathElement.isLinear then
          let path := symmetricReorder elems
          (BuildResult.ok
            ⟨path.map (roundedVertex shape atlasTexture texNormalSubRect)⟩
            geometry.isSome, (shape.key, path) :: cache)
        else (BuildResult.assertHalt, cache)

/-- The outline vector the rounded-rectangle path of the build uses: the
    cached outline on a hit, the symmetric reorder of the simplified element
    stream on a miss. -/
def outlineUsed (simplify : Simplifier) (cache : PathCache) (shape : Shape) :
    List QPointF :=
  match cacheLookup cache shape.key with
  | some path => path
  | none => symmetricReorder (simplify shape.rect.w shape.rect.h shape.radius)

/-- The mutable state of the node facade. -/
structure NodeState where
  m_texture : Option Texture
  m_shape : Shape
  m_smooth : Bool
  geometry : Option Geometry
deriving DecidableEq

/-- Outcome of a facade operation: a null texture dereference (undefined
    behaviour), an assertion failure, or a new state with the boolean result. -/
inductive FacadeOutcome where
  | nullDeref
  | assertHalt
  | done (st : NodeState) (ret : Bool)
deriving DecidableEq

/-- The member rebuildGeometry(shape): dereferences m_texture with no null
    guard, passes it as atlas texture iff it is an atlas texture, and installs
    the rebuilt geometry on success. -/
def rebuildGeometryWith (simplify : Simplifier) (cache : PathCache)
    (st : NodeState) (shape : Shape) : FacadeOutcome × PathCache :=
  match st.m_texture with
  | none => (FacadeOutcome.nullDeref, cache)
  | some tex =>
    match rebuildGeometryS simplify cache shape st.geometry
        (if tex.isAtlasTexture then some tex else none) with
    | (BuildResult.fail, c) => (FacadeOutcome.done st false, c)
    | (BuildResult.assertHalt, c) => (FacadeOutcome.assertHalt, c)
    | (BuildResult.ok g _, c) =>
      (FacadeOutcome.done { st with geometry := some g } true, c)

/-- The zero-argument member rebuildGeometry(): rebuild with m_shape. -/
def rebuildGeometryM (simplify : Simplifier) (cache : PathCache)
    (st : NodeState) : FacadeOutcome × PathCache :=
  rebuildGeometryWith simplify cache st st.m_shape

/-- setShape: no-op returning false when the shape compares equal to the
    current one; otherwise rebuild, committing the new shape only on success. -/
def setShape (simplify : Simplifier) (cache : PathCache) (st : NodeState)
    (s : Shape) : FacadeOutcome × PathCache :=
  if Shape.beq st.m_shape s then (FacadeOutcome.done st false, cache)
  else
    match rebuildGeometryWith simplify cache st s with
    | (FacadeOutcome.done st1 true, c) =>
      (FacadeOutcome.done { st1 with m_shape := s } true, c)
    | (other, c) => (other, c)

/-- Outcome of setTexture (which returns void): either a halt propagated from
    the triggered rebuild, or the new state. -/
inductive SetTextureOutcome where
  | halt
  | done (st : NodeState)
deriving DecidableEq

/-- setTexture: wasAtlas is true when no texture was installed or the previous
    texture was an atlas texture; the texture is installed first, then a
    geometry rebuild is triggered iff wasAtlas or the new texture is an atlas
    texture. The middle component records whether the rebuild was triggered. -/
def setTexture (simplify : Simplifier) (cache : PathCache) (st : NodeState)
    (t : Texture) : SetTextureOutcome × Bool × PathCache :=
  let wasAtlas := match st.m_texture with
    | none => true
    | some tex => tex.isAtlasTexture
  let st1 := { st with m_texture := some t }
  if wasAtlas || t.isAtlasTexture then
    match rebuildGeometryM simplify cache st1 with
    | (FacadeOutcome.done st2 _, c) => (SetTextureOutcome.done st2, true, c)
    | (_, c) => (SetTextureOutcome.halt, true, c)
  else (SetTextureOutcome.done st1, false, cache)

/-- The Shape equality the claim describes: exact rect comparison and a radius
    tolerance of 1e-12 times max(1, |a|, |b|). This follows the claim text,
    not the source, and is compared against `Shape.beq`. -/
def shapeEqClaimed (a b : Shape) : Bool :=
  decide (a.rect = b.rect) &&
  decide (|a.radius - b.radius| ≤ (1 / 1000000000000) * max 1 (max |a.radius| |b.radius|))

/-- The rebuild trigger condition the claim describes for setTexture: the
    previous texture was an atlas texture (no previous texture means it was
    not), or the new texture is an atlas texture. This follows the claim text,
    not the source. -/
def claimedRebuildTrigger (st : NodeState) (t : Texture) : Bool :=
  (match st.m_texture with
   | none => false
   | some tex => tex.isAtlasTexture) || t.isAtlasTexture

/-- A simplifier oracle returning an empty element stream, used for concrete
    instances whose build never reaches the simplifier. -/
def simplify0 : Simplifier := fun _ _ _ => []

/-- A simplifier oracle whose stream contains higher-order curve elements. -/
def simplifyCurved : Simplifier := fun _ _ _ =>
  [⟨ElementType.moveTo, 1, 0⟩, ⟨ElementType.curveTo, 2, 1⟩,
   ⟨ElementType.curveToData, 2, 2⟩, ⟨ElementType.lineTo, 1, 2⟩]

/-- A simplifier oracle returning a small linear (move-to and line-to only)
    stream inside the frame of a 2 by 2 rectangle. -/
def simplifyDiamond : Simplifier := fun _ _ _ =>
  [⟨ElementType.moveTo, 1, 0⟩, ⟨ElementType.lineTo, 0, 1⟩,
   ⟨ElementType.lineTo, 1, 2⟩, ⟨ElementType.lineTo, 2, 1⟩]

theorem shape_beq_refl (s : Shape) : Shape.beq s s = true := by
  simp [Shape.beq, qFuzzyCompare, abs_nonneg]

theorem getD_map_default {α β : Type} [Inhabited α] [Inhabited β] (f : α → β)
    (l : List α) (i : ℕ) (h : i < l.length) :
    (l.map f).getD i default = f (l.getD i default) := by
  rw [List.getD_eq_getElem _ _ (by simpa using h), List.getElem_map,
      List.getD_eq_getElem _ _ h]

theorem symmetricReorder_length (elems : List PathElement) :
    (symmetricReorder elems).length = elems.length := by
  simp [symmetricReorder]

theorem symmetricReorder_getD (elems : List PathElement) (i : ℕ)
    (h : i < elems.length) :
    (symmetricReorder elems).getD i default =
      (elems.getD (if i % 2 = 1 then i else elems.length - 1 - i) default).toPoint := by
  unfold symmetricReorder
  rw [List.getD_eq_getElem _ _ (by simpa using h), List.getElem_map,
      List.getElem_range]

/-- C8: counterexample. With equal rects, a radius of 0 and a radius of
    5e-13 are equal under the tolerance the claim states, but
    Shape::operator== compares them unequal, because qFuzzyCompare scales
    the tolerance by the smaller magnitude, which is 0 here. -/
theorem C8_counterexample :
    shapeEqClaimed ⟨⟨0, 0, 1, 1⟩, 0⟩ ⟨⟨0, 0, 1, 1⟩, 1 / 2000000000000⟩ = true ∧
    Shape.beq ⟨⟨0, 0, 1, 1⟩, 0⟩ ⟨⟨0, 0, 1, 1⟩, 1 / 2000000000000⟩ = false := by
  constructor
  · norm_num [shapeEqClaimed, abs_le, abs_sub_le_iff]
  · norm_num [Shape.beq, qFuzzyCompare, abs_le, abs_sub_le_iff]

/-- C8 (amended): Shape equality holds iff the rects compare exactly equal
    and the radii a, b satisfy |a - b| * 1e12 <= min(|a|, |b|), the Qt fuzzy
    comparison, whose tolerance is relative to the smaller magnitude; a
    radius of 0 is fuzzily equal only to exactly 0. -/
theorem C8_amended_shape_eq (a b : Shape) :
    Shape.beq a b = true ↔
      (a.rect = b.rect ∧
       |a.radius - b.radius| * 1000000000000 ≤ min |a.radius| |b.radius|) := by
  simp [Shape.beq, qFuzzyCompare]

/-- C6: counterexample. With no texture installed, installing a non-atlas
    texture triggers a geometry rebuild, although neither the previous nor
    the new texture is an atlas texture: setTexture treats a missing previous
    texture like an atlas one. -/
theorem C6_counterexample :
    (setTexture simplify0 [] ⟨none, ⟨⟨0, 0, 0, 0⟩, 0⟩, true, none⟩
        ⟨false, ⟨0, 0, 1, 1⟩⟩).2.1 = true ∧
    claimedRebuildTrigger ⟨none, ⟨⟨0, 0, 0, 0⟩, 0⟩, true, none⟩
        ⟨false, ⟨0, 0, 1, 1⟩⟩ = false := by
  constructor
  · rfl
  · rfl

/-- C6 (amended): setTexture triggers a geometry rebuild iff no previous
    texture was installed, or the previous texture was an atlas texture, or
    the new texture is an atlas texture; with a previous non-atlas texture
    and a new non-atlas texture no rebuild occurs. -/
theorem C6_amended_setTexture_trigger (simplify : Simplifier) (cache : PathCache)
    (st : NodeState) (t : Texture) :
    (setTexture simplify cache st t).2.1 =
      ((match st.m_texture with
        | none => true
        | some tex => tex.isAtlasTexture) || t.isAtlasTexture) := by
  unfold setTexture
  cases htex : st.m_texture with
  | none =>
    simp only [Bool.true_or]
    cases hre : rebuildGeometryM simplify cache { st with m_texture := some t } with
    | mk outcome c => cases outcome <;> simp [hre]
  | some tex =>
    by_cases hcond : (tex.isAtlasTexture || t.isAtlasTexture) = true
    · simp only [hcond, if_pos rfl, if_true]
      cases hre : rebuildGeometryM simplify cache { st with m_texture := some t } with
      | mk outcome c => cases outcome <;> simp [hre, hcond]
    · have hcond' : (tex.isAtlasTexture || t.isAtlasTexture) = false := by
        simpa using hcond
      simp [hcond']

/-- C10: with no texture installed, the facade rebuild path dereferences the
    null texture pointer: both the zero-argument rebuildGeometry and setShape
    with a valid shape different from the current one reach
    m_texture->isAtlasTexture() with m_texture null. -/
theorem C10_null_texture_deref (simplify : Simplifier) (cache : PathCache)
    (st : NodeState) (s : Shape)
    (htex : st.m_texture = none)
    (hvalid : Shape.isValid s = true)
    (hne : Shape.beq st.m_shape s = false) :
    (rebuildGeometryM simplify cache st).1 = FacadeOutcome.nullDeref ∧
    (setShape simplify cache st s).1 = FacadeOutcome.nullDeref := by
  constructor
  · simp [rebuildGeometryM, rebuildGeometryWith, htex]
  · simp [setShape, hne, rebuildGeometryWith, htex]

/-- C10 witness at a concrete null-texture state and a concrete valid shape. -/
theorem C10_null_texture_deref_witness :
    (⟨none, ⟨⟨0, 0, 0, 0⟩, 0⟩, true, none⟩ : NodeState).m_texture = none ∧
    Shape.isValid ⟨⟨0, 0, 2, 3⟩, 1⟩ = true ∧
    Shape.beq (⟨none, ⟨⟨0, 0, 0, 0⟩, 0⟩, true, none⟩ : NodeState).m_shape
      ⟨⟨0, 0, 2, 3⟩, 1⟩ = false ∧
    ((rebuildGeometryM simplify0 [] ⟨none, ⟨⟨0, 0, 0, 0⟩, 0⟩, true, none⟩).1 =
        FacadeOutcome.nullDeref ∧
     (setShape simplify0 [] ⟨none, ⟨⟨0, 0, 0, 0⟩, 0⟩, true, none⟩
        ⟨⟨0, 0, 2, 3⟩, 1⟩).1 = FacadeOutcome.nullDeref) := by
  refine ⟨rfl, by norm_num [Shape.isValid, QRectF.isEmpty], ?_, ?_⟩
  · norm_num [Shape.beq]
  · exact C10_null_texture_deref simplify0 [] _ _ rfl
      (by norm_num [Shape.isValid, QRectF.isEmpty])
      (by norm_num [Shape.beq])

/-- C4: an invalid shape (empty rect or negative radius) makes the static
    rebuild return the nullptr sentinel with the cache untouched and no
    geometry produced, and makes setShape return false with the node state
    (current shape and installed geometry) completely unchanged. -/
theorem C4_invalid_shape_atomic (simplify : Simplifier) (cache : PathCache)
    (geometry : Option Geometry) (atlasTexture : Option Texture)
    (st : NodeState) (tex : Texture) (s : Shape)
    (hs : Shape.isValid s = false)
    (htex : st.m_texture = some tex) :
    rebuildGeometryS simplify cache s geometry atlasTexture =
      (BuildResult.fail, cache) ∧
    setShape simplify cache st s = (FacadeOutcome.done st false, cache) := by
  have h1 : ∀ (g : Option Geometry) (a : Option Texture),
      rebuildGeometryS simplify cache s g a = (BuildResult.fail, cache) := by
    intro g a
    unfold rebuildGeometryS
    simp [hs]
  refine ⟨h1 geometry atlasTexture, ?_⟩
  unfold setShape
  cases hbeq : Shape.beq st.m_shape s
  · rw [if_neg (by simp [hbeq])]
    unfold rebuildGeometryWith
    rw [htex]
    simp [h1]
  · simp

/-- C4 witness at a concrete empty-rect shape and a concrete node state. -/
theorem C4_invalid_shape_atomic_witness :
    Shape.isValid ⟨⟨0, 0, 0, 5⟩, 1⟩ = false ∧
    (⟨some ⟨false, ⟨0, 0, 1, 1⟩⟩, ⟨⟨0, 0, 0, 0⟩, 0⟩, true, none⟩ :
      NodeState).m_texture = some ⟨false, ⟨0, 0, 1, 1⟩⟩ ∧
    (rebuildGeometryS simplify0 [] ⟨⟨0, 0, 0, 5⟩, 1⟩ none none =
      (BuildResult.fail, []) ∧
     setShape simplify0 [] ⟨some ⟨false, ⟨0, 0, 1, 1⟩⟩, ⟨⟨0, 0, 0, 0⟩, 0⟩, true, none⟩
        ⟨⟨0, 0, 0, 5⟩, 1⟩ =
      (FacadeOutcome.done
        ⟨some ⟨false, ⟨0, 0, 1, 1⟩⟩, ⟨⟨0, 0, 0, 0⟩, 0⟩, true, none⟩ false, [])) := by
  refine ⟨by norm_num [Shape.isValid, QRectF.isEmpty], rfl, ?_⟩
  exact C4_invalid_shape_atomic simplify0 [] none none _ _ _
    (by norm_num [Shape.isValid, QRectF.isEmpty]) rfl

theorem setShape_success_committed (simplify : Simplifier) (cache cache1 : PathCache)
    (st st1 : NodeState) (s : Shape)
    (h : setShape simplify cache st s = (FacadeOutcome.done st1 true, cache1)) :
    st1.m_shape = s := by
  unfold setShape at h
  by_cases hbeq : Shape.beq st.m_shape s = true
  · rw [if_pos hbeq] at h
    exact absurd (congrArg (fun p => p.1) h) (by simp)
  · rw [if_neg hbeq] at h
    cases hre : rebuildGeometryWith simplify cache st s with
    | mk outcome c =>
      rw [hre] at h
      cases outcome with
      | nullDeref => simp at h
      | assertHalt => simp at h
      | done st2 ret =>
        cases ret with
        | false => simp at h
        | true =>
          have : st1 = { st2 with m_shape := s } := by
            have := congrArg (fun p => p.1) h
            simpa using this.symm
          rw [this]

/-- C7: a setShape call with a shape equal, under Shape equality, to the
    current one returns false and performs no rebuild: state and cache are
    unchanged. In particular a second identical call right after a
    successful setShape leaves the node state (geometry buffer and vertex
    count included) and the cache unchanged. -/
theorem C7_setShape_idempotent (simplify : Simplifier) (cache cache1 : PathCache)
    (st st1 : NodeState) (s : Shape)
    (h : (Shape.beq st.m_shape s = true ∧ st1 = st ∧ cache1 = cache) ∨
         setShape simplify cache st s = (FacadeOutcome.done st1 true, cache1)) :
    setShape simplify cache1 st1 s = (FacadeOutcome.done st1 false, cache1) := by
  have hbeq : Shape.beq st1.m_shape s = true := by
    rcases h with ⟨heq, hst, _⟩ | hfirst
    · rw [hst]; exact heq
    · rw [setShape_success_committed simplify cache cache1 st st1 s hfirst]
      exact shape_beq_refl s
  unfold setShape
  rw [if_pos hbeq]

/-- C7 witness: a concrete successful setShape (plain rectangle) followed by
    the identical call, which returns false and changes nothing. -/
theorem C7_setShape_idempotent_witness :
    ((Shape.beq (⟨some ⟨false, ⟨0, 0, 1, 1⟩⟩, ⟨⟨0, 0, 0, 0⟩, 0⟩, true, none⟩ :
        NodeState).m_shape ⟨⟨0, 0, 2, 3⟩, 0⟩ = true ∧
      (⟨some ⟨false, ⟨0, 0, 1, 1⟩⟩, ⟨⟨0, 0, 2, 3⟩, 0⟩, true,
        some ⟨updateTexturedRectGeometry ⟨0, 0, 2, 3⟩ ⟨0, 0, 1, 1⟩⟩⟩ : NodeState) =
        ⟨some ⟨false, ⟨0, 0, 1, 1⟩⟩, ⟨⟨0, 0, 0, 0⟩, 0⟩, true, none⟩ ∧
      ([] : PathCache) = []) ∨
     setShape simplify0 [] ⟨some ⟨false, ⟨0, 0, 1, 1⟩⟩, ⟨⟨0, 0, 0, 0⟩, 0⟩, true, none⟩
        ⟨⟨0, 0, 2, 3⟩, 0⟩ =
       (FacadeOutcome.done
         ⟨some ⟨false, ⟨0, 0, 1, 1⟩⟩, ⟨⟨0, 0, 2, 3⟩, 0⟩, true,
           some ⟨updateTexturedRectGeometry ⟨0, 0, 2, 3⟩ ⟨0, 0, 1, 1⟩⟩⟩ true, [])) ∧
    setShape simplify0 []
      ⟨some ⟨false, ⟨0, 0, 1, 1⟩⟩, ⟨⟨0, 0, 2, 3⟩, 0⟩, true,
        some ⟨updateTexturedRectGeometry ⟨0, 0, 2, 3⟩ ⟨0, 0, 1, 1⟩⟩⟩
      ⟨⟨0, 0, 2, 3⟩, 0⟩ =
      (FacadeOutcome.done
        ⟨some ⟨false, ⟨0, 0, 1, 1⟩⟩, ⟨⟨0, 0, 2, 3⟩, 0⟩, true,
          some ⟨updateTexturedRectGeometry ⟨0, 0, 2, 3⟩ ⟨0, 0, 1, 1⟩⟩⟩ false, []) := by
  have hfirst : setShape simplify0 []
      ⟨some ⟨false, ⟨0, 0, 1, 1⟩⟩, ⟨⟨0, 0, 0, 0⟩, 0⟩, true, none⟩ ⟨⟨0, 0, 2, 3⟩, 0⟩ =
      (FacadeOutcome.done
        ⟨some ⟨false, ⟨0, 0, 1, 1⟩⟩, ⟨⟨0, 0, 2, 3⟩, 0⟩, true,
          some ⟨updateTexturedRectGeometry ⟨0, 0, 2, 3⟩ ⟨0, 0, 1, 1⟩⟩⟩ true, []) := by
    unfold setShape
    rw [if_neg (by norm_num [Shape.beq])]
    unfold rebuildGeometryWith rebuildGeometryS
    norm_num [Shape.isValid, QRectF.isEmpty, qFuzzyIsNull, texSubRect]
  exact ⟨Or.inr hfirst,
    C7_setShape_idempotent simplify0 [] [] _ _ _ (Or.inr hfirst)⟩

/-- C1: on a cache miss of a rounded build, the builder enumerates the M
    elements of the simplified path in source order and emits the point
    sequence P with P[i] = element M-1-i for even i and P[i] = element i for
    odd i; the build succeeds with these points and caches P under the
    shape key. -/
theorem C1_symmetric_reorder (simplify : Simplifier) (cache : PathCache)
    (shape : Shape) (geometry : Option Geometry) (atlasTexture : Option Texture)
    (elems : List PathElement) (M : ℕ) (P : List QPointF)
    (helems : elems = simplify shape.rect.w shape.rect.h shape.radius)
    (hM : M = elems.length)
    (hP : P = symmetricReorder elems)
    (hvalid : shape.isValid = true)
    (hround : qFuzzyIsNull shape.radius = false)
    (hmiss : cacheLookup cache shape.key = none)
    (htypes : elems.all PathElement.isLinear = true) :
    rebuildGeometryS simplify cache shape geometry atlasTexture =
      (BuildResult.ok
        ⟨P.map (roundedVertex shape atlasTexture (texSubRect atlasTexture))⟩
        geometry.isSome, (shape.key, P) :: cache) ∧
    P.length = M ∧
    ∀ i, i < M →
      (i % 2 = 0 → P.getD i default = (elems.getD (M - 1 - i) default).toPoint) ∧
      (i % 2 = 1 → P.getD i default = (elems.getD i default).toPoint) := by
  subst helems hM hP
  refine ⟨?_, symmetricReorder_length _, ?_⟩
  · unfold rebuildGeometryS
    rw [if_neg (by simp [hvalid]), if_neg (by simp [hround]), hmiss, if_pos htypes]
  · intro i hi
    constructor
    · intro heven
      rw [symmetricReorder_getD _ i hi, if_neg (by omega)]
    · intro hodd
      rw [symmetricReorder_getD _ i hi, if_pos hodd]

/-- C1 witness at a concrete simplifier stream of four linear elements for
    the 2 by 2 rectangle with radius 1, starting from the empty cache. -/
theorem C1_symmetric_reorder_witness :
    simplifyDiamond 2 2 1 = simplifyDiamond 2 2 1 ∧
    (4 : ℕ) = (simplifyDiamond 2 2 1).length ∧
    symmetricReorder (simplifyDiamond 2 2 1) =
      symmetricReorder (simplifyDiamond 2 2 1) ∧
    Shape.isValid ⟨⟨0, 0, 2, 2⟩, 1⟩ = true ∧
    qFuzzyIsNull (⟨⟨0, 0, 2, 2⟩, 1⟩ : Shape).radius = false ∧
    cacheLookup [] (⟨⟨0, 0, 2, 2⟩, 1⟩ : Shape).key = none ∧
    (simplifyDiamond 2 2 1).all PathElement.isLinear = true ∧
    (rebuildGeometryS simplifyDiamond [] ⟨⟨0, 0, 2, 2⟩, 1⟩ none none =
      (BuildResult.ok
        ⟨(symmetricReorder (simplifyDiamond 2 2 1)).map
          (roundedVertex ⟨⟨0, 0, 2, 2⟩, 1⟩ none (texSubRect none))⟩
        (none : Option Geometry).isSome,
        ((⟨⟨0, 0, 2, 2⟩, 1⟩ : Shape).key,
          symmetricReorder (simplifyDiamond 2 2 1)) :: []) ∧
     (symmetricReorder (simplifyDiamond 2 2 1)).length = 4 ∧
     ∀ i, i < 4 →
       (i % 2 = 0 →
         (symmetricReorder (simplifyDiamond 2 2 1)).getD i default =
           ((simplifyDiamond 2 2 1).getD (4 - 1 - i) default).toPoint) ∧
       (i % 2 = 1 →
         (symmetricReorder (simplifyDiamond 2 2 1)).getD i default =
           ((simplifyDiamond 2 2 1).getD i default).toPoint)) := by
  have hval : Shape.isValid ⟨⟨0, 0, 2, 2⟩, 1⟩ = true := by
    norm_num [Shape.isValid, QRectF.isEmpty]
  have hfz : qFuzzyIsNull (⟨⟨0, 0, 2, 2⟩, 1⟩ : Shape).radius = false := by
    norm_num [qFuzzyIsNull, abs_le]
  exact ⟨rfl, rfl, rfl, hval, hfz, rfl, rfl,
    C1_symmetric_reorder simplifyDiamond [] ⟨⟨0, 0, 2, 2⟩, 1⟩ none none
      (simplifyDiamond 2 2 1) 4 (symmetricReorder (simplifyDiamond 2 2 1))
      rfl rfl rfl hval hfz rfl rfl⟩

theorem rebuild_rounded_vertices (simplify : Simplifier) (cache : PathCache)
    (shape : Shape) (geometry : Option Geometry) (atlasTexture : Option Texture)
    (g : Geometry) (reused : Bool)
    (hround : qFuzzyIsNull shape.radius = false)
    (hok : (rebuildGeometryS simplify cache shape geometry atlasTexture).1 =
      BuildResult.ok g reused) :
    g.vertices = (outlineUsed simplify cache shape).map
      (roundedVertex shape atlasTexture (texSubRect atlasTexture)) := by
  unfold rebuildGeometryS at hok
  by_cases hval : shape.isValid = true
  · rw [if_neg (by simp [hval])] at hok
    rw [if_neg (by simp [hround])] at hok
    unfold outlineUsed
    cases hlook : cacheLookup cache shape.key with
    | some path =>
      rw [hlook] at hok
      simp only at hok
      rw [← (BuildResult.ok.injEq _ _ _ _).mp hok |>.1]
    | none =>
      rw [hlook] at hok
      by_cases htypes :
          (simplify shape.rect.w shape.rect.h shape.radius).all
            PathElement.isLinear = true
      · rw [if_pos htypes] at hok
        simp only at hok
        rw [← (BuildResult.ok.injEq _ _ _ _).mp hok |>.1]
      · rw [if_neg htypes] at hok
        simp at hok
  · rw [if_pos (by simp [hval])] at hok
    simp at hok

/-- C2: in a successful rounded build, the vertex emitted for the i-th
    outline point p has position (p.x + rect.x, p.y + rect.y) and texture
    coordinate (S.x + S.w * (p.x / w), S.y + S.h * (p.y / h)) for the atlas
    sub-rect S, which is the unit square when no atlas texture is supplied,
    in which case the coordinate equals the local (p.x / w, p.y / h). -/
theorem C2_vertex_formula (simplify : Simplifier) (cache : PathCache)
    (shape : Shape) (geometry : Option Geometry) (atlasTexture : Option Texture)
    (g : Geometry) (reused : Bool) (S : QRectF) (P : List QPointF)
    (hS : S = texSubRect atlasTexture)
    (hP : P = outlineUsed simplify cache shape)
    (hround : qFuzzyIsNull shape.radius = false)
    (hok : (rebuildGeometryS simplify cache shape geometry atlasTexture).1 =
      BuildResult.ok g reused) :
    g.vertices.length = P.length ∧
    ∀ i, i < P.length →
      g.vertices.getD i default =
        ⟨(P.getD i default).x + shape.rect.x,
         (P.getD i default).y + shape.rect.y,
         S.x + S.w * ((P.getD i default).x / shape.rect.w),
         S.y + S.h * ((P.getD i default).y / shape.rect.h)⟩ ∧
      (atlasTexture = none →
        (g.vertices.getD i default).tx = (P.getD i default).x / shape.rect.w ∧
        (g.vertices.getD i default).ty = (P.getD i default).y / shape.rect.h) := by
  subst hS hP
  have hverts := rebuild_rounded_vertices simplify cache shape geometry
    atlasTexture g reused hround hok
  constructor
  · rw [hverts, List.length_map]
  · intro i hi
    have hmap : g.vertices.getD i default =
        roundedVertex shape atlasTexture (texSubRect atlasTexture)
          ((outlineUsed simplify cache shape).getD i default) := by
      rw [hverts]
      exact getD_map_default _ _ i hi
    cases hat : atlasTexture with
    | none =>
      constructor
      · rw [hmap, hat]
        simp [roundedVertex, texSubRect]
      · intro _
        rw [hmap, hat]
        simp [roundedVertex, texSubRect]
    | some t =>
      constructor
      · rw [hmap, hat]
        simp [roundedVertex, texSubRect, mapToAtlasTexture]
      · intro hcontra
        exact absurd hcontra (by simp)

/-- C2 witness at a concrete cached outline for the 2 by 2 rectangle with
    radius 1 and no atlas texture. -/
theorem C2_vertex_formula_witness :
    (⟨0, 0, 1, 1⟩ : QRectF) = texSubRect none ∧
    [(⟨1, 0⟩ : QPointF), ⟨0, 1⟩] =
      outlineUsed simplify0
        [(((2, 2), 1), [(⟨1, 0⟩ : QPointF), ⟨0, 1⟩])] ⟨⟨0, 0, 2, 2⟩, 1⟩ ∧
    qFuzzyIsNull (⟨⟨0, 0, 2, 2⟩, 1⟩ : Shape).radius = false ∧
    ((rebuildGeometryS simplify0 [(((2, 2), 1), [(⟨1, 0⟩ : QPointF), ⟨0, 1⟩])]
        ⟨⟨0, 0, 2, 2⟩, 1⟩ none none).1 =
      BuildResult.ok
        ⟨[(⟨1, 0⟩ : QPointF), ⟨0, 1⟩].map
          (roundedVertex ⟨⟨0, 0, 2, 2⟩, 1⟩ none (texSubRect none))⟩ false) ∧
    ((⟨[(⟨1, 0⟩ : QPointF), ⟨0, 1⟩].map
        (roundedVertex ⟨⟨0, 0, 2, 2⟩, 1⟩ none (texSubRect none))⟩ :
          Geometry).vertices.length =
      [(⟨1, 0⟩ : QPointF), ⟨0, 1⟩].length ∧
     ∀ i, i < [(⟨1, 0⟩ : QPointF), ⟨0, 1⟩].length →
      (⟨[(⟨1, 0⟩ : QPointF), ⟨0, 1⟩].map
          (roundedVertex ⟨⟨0, 0, 2, 2⟩, 1⟩ none (texSubRect none))⟩ :
            Geometry).vertices.getD i default =
        ⟨([(⟨1, 0⟩ : QPointF), ⟨0, 1⟩].getD i default).x +
            (⟨⟨0, 0, 2, 2⟩, 1⟩ : Shape).rect.x,
         ([(⟨1, 0⟩ : QPointF), ⟨0, 1⟩].getD i default).y +
            (⟨⟨0, 0, 2, 2⟩, 1⟩ : Shape).rect.y,
         (⟨0, 0, 1, 1⟩ : QRectF).x + (⟨0, 0, 1, 1⟩ : QRectF).w *
            (([(⟨1, 0⟩ : QPointF), ⟨0, 1⟩].getD i default).x /
              (⟨⟨0, 0, 2, 2⟩, 1⟩ : Shape).rect.w),
         (⟨0, 0, 1, 1⟩ : QRectF).y + (⟨0, 0, 1, 1⟩ : QRectF).h *
            (([(⟨1, 0⟩ : QPointF), ⟨0, 1⟩].getD i default).y /
              (⟨⟨0, 0, 2, 2⟩, 1⟩ : Shape).rect.h)⟩ ∧
      ((none : Option Texture) = none →
        ((⟨[(⟨1, 0⟩ : QPointF), ⟨0, 1⟩].map
            (roundedVertex ⟨⟨0, 0, 2, 2⟩, 1⟩ none (texSubRect none))⟩ :
              Geometry).vertices.getD i default).tx =
          ([(⟨1, 0⟩ : QPointF), ⟨0, 1⟩].getD i default).x /
            (⟨⟨0, 0, 2, 2⟩, 1⟩ : Shape).rect.w ∧
        ((⟨[(⟨1, 0⟩ : QPointF), ⟨0, 1⟩].map
            (roundedVertex ⟨⟨0, 0, 2, 2⟩, 1⟩ none (texSubRect none))⟩ :
              Geometry).vertices.getD i default).ty =
          ([(⟨1, 0⟩ : QPointF), ⟨0, 1⟩].getD i default).y /
            (⟨⟨0, 0, 2, 2⟩, 1⟩ : Shape).rect.h)) := by
  have hfz : qFuzzyIsNull (⟨⟨0, 0, 2, 2⟩, 1⟩ : Shape).radius = false := by
    norm_num [qFuzzyIsNull, abs_le]
  have hok : (rebuildGeometryS simplify0 [(((2, 2), 1), [(⟨1, 0⟩ : QPointF), ⟨0, 1⟩])]
      ⟨⟨0, 0, 2, 2⟩, 1⟩ none none).1 =
      BuildResult.ok
        ⟨[(⟨1, 0⟩ : QPointF), ⟨0, 1⟩].map
          (roundedVertex ⟨⟨0, 0, 2, 2⟩, 1⟩ none (texSubRect none))⟩ false := by
    unfold rebuildGeometryS
    rw [if_neg (by norm_num [Shape.isValid, QRectF.isEmpty]), if_neg (by simp [hfz])]
    rfl
  exact ⟨rfl, rfl, hfz, hok,
    C2_vertex_formula simplify0 [(((2, 2), 1), [(⟨1, 0⟩ : QPointF), ⟨0, 1⟩])]
      ⟨⟨0, 0, 2, 2⟩, 1⟩ none none _ false _ _ rfl rfl hfz hok⟩

/-- C3: with a texture installed, setShape with a valid rect, a fuzzily zero
    non-negative radius and a shape differing from the current one succeeds,
    committing the shape and installing a geometry of exactly four vertices
    whose positions are the four corners of the rect and whose texture
    coordinates are the four corners of the texture sub-rect, the unit
    square when the texture is not an atlas texture. -/
theorem C3_plain_rect_build (simplify : Simplifier) (cache : PathCache)
    (st : NodeState) (tex : Texture) (s : Shape) (S : QRectF)
    (htex : st.m_texture = some tex)
    (hS : S = (if tex.isAtlasTexture then tex.normalizedTextureSubRect
               else ⟨0, 0, 1, 1⟩))
    (hrect : s.rect.isEmpty = false)
    (hr0 : qFuzzyIsNull s.radius = true)
    (hrnn : 0 ≤ s.radius)
    (hne : Shape.beq st.m_shape s = false) :
    setShape simplify cache st s =
      (FacadeOutcome.done
        { st with
          m_shape := s
          geometry := some ⟨[⟨s.rect.x, s.rect.y, S.x, S.y⟩,
            ⟨s.rect.x, s.rect.y + s.rect.h, S.x, S.y + S.h⟩,
            ⟨s.rect.x + s.rect.w, s.rect.y, S.x + S.w, S.y⟩,
            ⟨s.rect.x + s.rect.w, s.rect.y + s.rect.h, S.x + S.w, S.y + S.h⟩]⟩ }
        true, cache) := by
  have hvalid : s.isValid = true := by
    simp [Shape.isValid, hrect, hrnn]
  have hsub : texSubRect (if tex.isAtlasTexture then some tex else none) = S := by
    cases hcase : tex.isAtlasTexture <;> simp [texSubRect, hS, hcase]
  have hstat : rebuildGeometryS simplify cache s st.geometry
      (if tex.isAtlasTexture then some tex else none) =
      (BuildResult.ok ⟨updateTexturedRectGeometry s.rect S⟩
        st.geometry.isSome, cache) := by
    unfold rebuildGeometryS
    simp only [hvalid, Bool.not_true, Bool.false_eq_true, if_false, hsub, hr0,
      if_true]
  unfold setShape
  rw [if_neg (by simp [hne])]
  unfold rebuildGeometryWith
  rw [htex]
  simp only []
  rw [hstat]
  rfl

/-- C3 witness: a concrete non-atlas texture, the rect (3, 4, 10, 5) and
    radius 0, starting from a state with a different shape. -/
theorem C3_plain_rect_build_witness :
    (⟨some ⟨false, ⟨0, 0, 1, 1⟩⟩, ⟨⟨0, 0, 0, 0⟩, 0⟩, true, none⟩ :
      NodeState).m_texture = some ⟨false, ⟨0, 0, 1, 1⟩⟩ ∧
    (⟨0, 0, 1, 1⟩ : QRectF) =
      (if (⟨false, ⟨0, 0, 1, 1⟩⟩ : Texture).isAtlasTexture
       then (⟨false, ⟨0, 0, 1, 1⟩⟩ : Texture).normalizedTextureSubRect
       else ⟨0, 0, 1, 1⟩) ∧
    (⟨⟨3, 4, 10, 5⟩, 0⟩ : Shape).rect.isEmpty = false ∧
    qFuzzyIsNull (⟨⟨3, 4, 10, 5⟩, 0⟩ : Shape).radius = true ∧
    (0 : ℚ) ≤ (⟨⟨3, 4, 10, 5⟩, 0⟩ : Shape).radius ∧
    Shape.beq (⟨some ⟨false, ⟨0, 0, 1, 1⟩⟩, ⟨⟨0, 0, 0, 0⟩, 0⟩, true, none⟩ :
      NodeState).m_shape ⟨⟨3, 4, 10, 5⟩, 0⟩ = false ∧
    setShape simplify0 []
      ⟨some ⟨false, ⟨0, 0, 1, 1⟩⟩, ⟨⟨0, 0, 0, 0⟩, 0⟩, true, none⟩
      ⟨⟨3, 4, 10, 5⟩, 0⟩ =
      (FacadeOutcome.done
        { (⟨some ⟨false, ⟨0, 0, 1, 1⟩⟩, ⟨⟨0, 0, 0, 0⟩, 0⟩, true, none⟩ :
            NodeState) with
          m_shape := ⟨⟨3, 4, 10, 5⟩, 0⟩
          geometry := some ⟨[⟨(⟨3, 4, 10, 5⟩ : QRectF).x, (⟨3, 4, 10, 5⟩ : QRectF).y,
              (⟨0, 0, 1, 1⟩ : QRectF).x, (⟨0, 0, 1, 1⟩ : QRectF).y⟩,
            ⟨(⟨3, 4, 10, 5⟩ : QRectF).x,
              (⟨3, 4, 10, 5⟩ : QRectF).y + (⟨3, 4, 10, 5⟩ : QRectF).h,
              (⟨0, 0, 1, 1⟩ : QRectF).x,
              (⟨0, 0, 1, 1⟩ : QRectF).y + (⟨0, 0, 1, 1⟩ : QRectF).h⟩,
            ⟨(⟨3, 4, 10, 5⟩ : QRectF).x + (⟨3, 4, 10, 5⟩ : QRectF).w,
              (⟨3, 4, 10, 5⟩ : QRectF).y,
              (⟨0, 0, 1, 1⟩ : QRectF).x + (⟨0, 0, 1, 1⟩ : QRectF).w,
              (⟨0, 0, 1, 1⟩ : QRectF).y⟩,
            ⟨(⟨3, 4, 10, 5⟩ : QRectF).x + (⟨3, 4, 10, 5⟩ : QRectF).w,
              (⟨3, 4, 10, 5⟩ : QRectF).y + (⟨3, 4, 10, 5⟩ : QRectF).h,
              (⟨0, 0, 1, 1⟩ : QRectF).x + (⟨0, 0, 1, 1⟩ : QRectF).w,
              (⟨0, 0, 1, 1⟩ : QRectF).y + (⟨0, 0, 1, 1⟩ : QRectF).h⟩]⟩ }
        true, []) := by
  refine ⟨rfl, rfl, by norm_num [QRectF.isEmpty], by norm_num [qFuzzyIsNull],
    by norm_num, by norm_num [Shape.beq], ?_⟩
  exact C3_plain_rect_build simplify0 [] _ _ _ _ rfl rfl
    (by norm_num [QRectF.isEmpty]) (by norm_num [qFuzzyIsNull]) (by norm_num)
    (by norm_num [Shape.beq])

/-- C9: counterexample. On a stream containing higher-order curve elements,
    the builder does not return the nullptr failure sentinel: it halts on the
    per-element assertion (and in release builds, where the assertion is
    compiled out, it would emit geometry from the stream). -/
theorem C9_counterexample :
    (rebuildGeometryS simplifyCurved [] ⟨⟨0, 0, 2, 2⟩, 1⟩ none none).1 =
      BuildResult.assertHalt ∧
    (rebuildGeometryS simplifyCurved [] ⟨⟨0, 0, 2, 2⟩, 1⟩ none none).1 ≠
      BuildResult.fail := by
  have h : (rebuildGeometryS simplifyCurved [] ⟨⟨0, 0, 2, 2⟩, 1⟩ none none).1 =
      BuildResult.assertHalt := by
    unfold rebuildGeometryS
    rw [if_neg (by norm_num [Shape.isValid, QRectF.isEmpty]),
        if_neg (by norm_num [qFuzzyIsNull, abs_le])]
    rfl
  exact ⟨h, by rw [h]; simp⟩

/-- C9 (amended): on a cache miss whose simplified stream contains an element
    that is neither move-to nor line-to, the builder halts on the assertion
    instead of returning the failure sentinel, and the cache is unchanged. -/
theorem C9_amended_assert_halts (simplify : Simplifier) (cache : PathCache)
    (shape : Shape) (geometry : Option Geometry) (atlasTexture : Option Texture)
    (hvalid : shape.isValid = true)
    (hround : qFuzzyIsNull shape.radius = false)
    (hmiss : cacheLookup cache shape.key = none)
    (hbad : (simplify shape.rect.w shape.rect.h shape.radius).all
      PathElement.isLinear = false) :
    rebuildGeometryS simplify cache shape geometry atlasTexture =
      (BuildResult.assertHalt, cache) := by
  unfold rebuildGeometryS
  rw [if_neg (by simp [hvalid]), if_neg (by simp [hround]), hmiss,
      if_neg (by simp [hbad])]

/-- C9 witness at the concrete curved stream. -/
theorem C9_amended_assert_halts_witness :
    Shape.isValid ⟨⟨0, 0, 2, 2⟩, 1⟩ = true ∧
    qFuzzyIsNull (⟨⟨0, 0, 2, 2⟩, 1⟩ : Shape).radius = false ∧
    cacheLookup [] (⟨⟨0, 0, 2, 2⟩, 1⟩ : Shape).key = none ∧
    (simplifyCurved 2 2 1).all PathElement.isLinear = false ∧
    rebuildGeometryS simplifyCurved [] ⟨⟨0, 0, 2, 2⟩, 1⟩ none none =
      (BuildResult.assertHalt, []) := by
  refine ⟨by norm_num [Shape.isValid, QRectF.isEmpty],
    by norm_num [qFuzzyIsNull, abs_le], rfl, rfl, ?_⟩
  exact C9_amended_assert_halts simplifyCurved [] ⟨⟨0, 0, 2, 2⟩, 1⟩ none none
    (by norm_num [Shape.isValid, QRectF.isEmpty])
    (by norm_num [qFuzzyIsNull, abs_le]) rfl rfl

/-- C5: every vertex of a successfully built geometry has its position in the
    closed rect and its texture coordinate in the closed texture sub-rect
    (the unit square when no atlas texture is supplied), provided the outline
    points lie in the local frame [0,w]x[0,h] and the sub-rect has
    non-negative extent. -/
theorem C5_bounds (simplify : Simplifier) (cache : PathCache) (shape : Shape)
    (geometry : Option Geometry) (atlasTexture : Option Texture)
    (g : Geometry) (reused : Bool) (S : QRectF)
    (hS : S = texSubRect atlasTexture)
    (hSw : 0 ≤ S.w) (hSh : 0 ≤ S.h)
    (hframe : ∀ p ∈ outlineUsed simplify cache shape,
      0 ≤ p.x ∧ p.x ≤ shape.rect.w ∧ 0 ≤ p.y ∧ p.y ≤ shape.rect.h)
    (hok : (rebuildGeometryS simplify cache shape geometry atlasTexture).1 =
      BuildResult.ok g reused) :
    ∀ v ∈ g.vertices,
      shape.rect.x ≤ v.x ∧ v.x ≤ shape.rect.x + shape.rect.w ∧
      shape.rect.y ≤ v.y ∧ v.y ≤ shape.rect.y + shape.rect.h ∧
      S.x ≤ v.tx ∧ v.tx ≤ S.x + S.w ∧
      S.y ≤ v.ty ∧ v.ty ≤ S.y + S.h := by
  by_cases hval : shape.isValid = true
  case neg =>
    unfold rebuildGeometryS at hok
    rw [if_pos (by simp [Bool.eq_false_iff.mpr hval])] at hok
    simp at hok
  case pos =>
  have hval' := hval
  simp only [Shape.isValid, QRectF.isEmpty, Bool.and_eq_true, Bool.not_eq_true',
    Bool.or_eq_false_iff, decide_eq_false_iff_not, decide_eq_true_eq] at hval'
  obtain ⟨⟨hw0, hh0⟩, hrnn⟩ := hval'
  have hw : 0 < shape.rect.w := not_le.mp hw0
  have hh : 0 < shape.rect.h := not_le.mp hh0
  intro v hv
  by_cases hfz : qFuzzyIsNull shape.radius = true
  · unfold rebuildGeometryS at hok
    rw [if_neg (by simp [hval]), if_pos hfz] at hok
    have hg : g = ⟨updateTexturedRectGeometry shape.rect (texSubRect atlasTexture)⟩ := by
      exact ((BuildResult.ok.injEq _ _ _ _).mp hok.symm).1
    rw [hg] at hv
    rw [← hS] at hv
    simp only [updateTexturedRectGeometry, List.mem_cons, List.mem_singleton,
      List.not_mem_nil, or_false] at hv
    rcases hv with rfl | rfl | rfl | rfl <;>
      refine ⟨?_, ?_, ?_, ?_, ?_, ?_, ?_, ?_⟩ <;> simp <;> linarith
  · have hfz' : qFuzzyIsNull shape.radius = false := Bool.eq_false_iff.mpr hfz
    have hverts := rebuild_rounded_vertices simplify cache shape geometry
      atlasTexture g reused hfz' hok
    rw [hverts] at hv
    obtain ⟨p, hp, hfp⟩ := List.mem_map.mp hv
    obtain ⟨h0x, hxw, h0y, hyh⟩ := hframe p hp
    have htx0 : 0 ≤ p.x / shape.rect.w := div_nonneg h0x hw.le
    have htx1 : p.x / shape.rect.w ≤ 1 := (div_le_one hw).mpr hxw
    have hty0 : 0 ≤ p.y / shape.rect.h := div_nonneg h0y hh.le
    have hty1 : p.y / shape.rect.h ≤ 1 := (div_le_one hh).mpr hyh
    subst hS
    cases hat : atlasTexture with
    | none =>
      rw [hat] at hfp
      rw [← hfp]
      unfold roundedVertex texSubRect
      simp only [Option.isSome_none, Bool.false_eq_true, if_false]
      refine ⟨by linarith, by linarith, by linarith, by linarith, ?_, ?_, ?_, ?_⟩ <;>
        (try simp) <;> linarith
    | some t =>
      rw [hat] at hfp
      rw [← hfp]
      unfold roundedVertex texSubRect mapToAtlasTexture
      rw [hat] at hSw hSh
      have hswr : t.normalizedTextureSubRect.w * (p.x / shape.rect.w) ≤
          t.normalizedTextureSubRect.w := by
        simpa using mul_le_of_le_one_right (by simpa [texSubRect] using hSw) htx1
      have hshr : t.normalizedTextureSubRect.h * (p.y / shape.rect.h) ≤
          t.normalizedTextureSubRect.h := by
        simpa using mul_le_of_le_one_right (by simpa [texSubRect] using hSh) hty1
      have hsw0 : 0 ≤ t.normalizedTextureSubRect.w * (p.x / shape.rect.w) :=
        mul_nonneg (by simpa [texSubRect] using hSw) htx0
      have hsh0 : 0 ≤ t.normalizedTextureSubRect.h * (p.y / shape.rect.h) :=
        mul_nonneg (by simpa [texSubRect] using hSh) hty0
      refine ⟨?_, ?_, ?_, ?_, ?_, ?_, ?_, ?_⟩ <;> simp [texSubRect] <;> linarith

/-- C5 witness at a concrete cached outline inside the frame, with an atlas
    texture whose sub-rect is the quarter square at (1/4, 1/2). -/
theorem C5_bounds_witness :
    (⟨1/4, 1/2, 1/4, 1/4⟩ : QRectF) =
      texSubRect (some ⟨true, ⟨1/4, 1/2, 1/4, 1/4⟩⟩) ∧
    (0 : ℚ) ≤ (⟨1/4, 1/2, 1/4, 1/4⟩ : QRectF).w ∧
    (0 : ℚ) ≤ (⟨1/4, 1/2, 1/4, 1/4⟩ : QRectF).h ∧
    (∀ p ∈ outlineUsed simplify0
        [(((2, 2), 1), [(⟨1, 0⟩ : QPointF), ⟨0, 1⟩, ⟨1, 2⟩, ⟨2, 1⟩])]
        ⟨⟨0, 0, 2, 2⟩, 1⟩,
      0 ≤ p.x ∧ p.x ≤ (⟨⟨0, 0, 2, 2⟩, 1⟩ : Shape).rect.w ∧
      0 ≤ p.y ∧ p.y ≤ (⟨⟨0, 0, 2, 2⟩, 1⟩ : Shape).rect.h) ∧
    ((rebuildGeometryS simplify0
        [(((2, 2), 1), [(⟨1, 0⟩ : QPointF), ⟨0, 1⟩, ⟨1, 2⟩, ⟨2, 1⟩])]
        ⟨⟨0, 0, 2, 2⟩, 1⟩ none (some ⟨true, ⟨1/4, 1/2, 1/4, 1/4⟩⟩)).1 =
      BuildResult.ok
        ⟨[(⟨1, 0⟩ : QPointF), ⟨0, 1⟩, ⟨1, 2⟩, ⟨2, 1⟩].map
          (roundedVertex ⟨⟨0, 0, 2, 2⟩, 1⟩ (some ⟨true, ⟨1/4, 1/2, 1/4, 1/4⟩⟩)
            (texSubRect (some ⟨true, ⟨1/4, 1/2, 1/4, 1/4⟩⟩)))⟩ false) ∧
    ∀ v ∈ (⟨[(⟨1, 0⟩ : QPointF), ⟨0, 1⟩, ⟨1, 2⟩, ⟨2, 1⟩].map
        (roundedVertex ⟨⟨0, 0, 2, 2⟩, 1⟩ (some ⟨true, ⟨1/4, 1/2, 1/4, 1/4⟩⟩)
          (texSubRect (some ⟨true, ⟨1/4, 1/2, 1/4, 1/4⟩⟩)))⟩ : Geometry).vertices,
      (⟨⟨0, 0, 2, 2⟩, 1⟩ : Shape).rect.x ≤ v.x ∧
      v.x ≤ (⟨⟨0, 0, 2, 2⟩, 1⟩ : Shape).rect.x + (⟨⟨0, 0, 2, 2⟩, 1⟩ : Shape).rect.w ∧
      (⟨⟨0, 0, 2, 2⟩, 1⟩ : Shape).rect.y ≤ v.y ∧
      v.y ≤ (⟨⟨0, 0, 2, 2⟩, 1⟩ : Shape).rect.y + (⟨⟨0, 0, 2, 2⟩, 1⟩ : Shape).rect.h ∧
      (⟨1/4, 1/2, 1/4, 1/4⟩ : QRectF).x ≤ v.tx ∧
      v.tx ≤ (⟨1/4, 1/2, 1/4, 1/4⟩ : QRectF).x + (⟨1/4, 1/2, 1/4, 1/4⟩ : QRectF).w ∧
      (⟨1/4, 1/2, 1/4, 1/4⟩ : QRectF).y ≤ v.ty ∧
      v.ty ≤ (⟨1/4, 1/2, 1/4, 1/4⟩ : QRectF).y + (⟨1/4, 1/2, 1/4, 1/4⟩ : QRectF).h := by
  have hframe : ∀ p ∈ outlineUsed simplify0
      [(((2, 2), 1), [(⟨1, 0⟩ : QPointF), ⟨0, 1⟩, ⟨1, 2⟩, ⟨2, 1⟩])]
      ⟨⟨0, 0, 2, 2⟩, 1⟩,
      0 ≤ p.x ∧ p.x ≤ (⟨⟨0, 0, 2, 2⟩, 1⟩ : Shape).rect.w ∧
      0 ≤ p.y ∧ p.y ≤ (⟨⟨0, 0, 2, 2⟩, 1⟩ : Shape).rect.h := by
    intro p hp
    simp only [outlineUsed, cacheLookup, Shape.key, if_pos rfl] at hp
    norm_num at hp
    rcases hp with rfl | rfl | rfl | rfl <;> norm_num
  have hok : (rebuildGeometryS simplify0
      [(((2, 2), 1), [(⟨1, 0⟩ : QPointF), ⟨0, 1⟩, ⟨1, 2⟩, ⟨2, 1⟩])]
      ⟨⟨0, 0, 2, 2⟩, 1⟩ none (some ⟨true, ⟨1/4, 1/2, 1/4, 1/4⟩⟩)).1 =
      BuildResult.ok
        ⟨[(⟨1, 0⟩ : QPointF), ⟨0, 1⟩, ⟨1, 2⟩, ⟨2, 1⟩].map
          (roundedVertex ⟨⟨0, 0, 2, 2⟩, 1⟩ (some ⟨true, ⟨1/4, 1/2, 1/4, 1/4⟩⟩)
            (texSubRect (some ⟨true, ⟨1/4, 1/2, 1/4, 1/4⟩⟩)))⟩ false := by
    unfold rebuildGeometryS
    rw [if_neg (by norm_num [Shape.isValid, QRectF.isEmpty]),
        if_neg (by norm_num [qFuzzyIsNull, abs_le])]
    rfl
  refine ⟨rfl, by norm_num, by norm_num, hframe, hok, ?_⟩
  exact C5_bounds simplify0
    [(((2, 2), 1), [(⟨1, 0⟩ : QPointF), ⟨0, 1⟩, ⟨1, 2⟩, ⟨2, 1⟩])]
    ⟨⟨0, 0, 2, 2⟩, 1⟩ none (some ⟨true, ⟨1/4, 1/2, 1/4, 1/4⟩⟩) _ false _
    rfl (by norm_num) (by norm_num) hframe hok

end QSG
